import Mathlib

/-!
Verification of the iNES / NES 2.0 header parsing and cartridge loading
logic of the SamsoftEmu NES frontend.  The repository ships two variant
implementations of the same decoder:

* `src/####samsoftnesemu4k.py` — function `parse_ines_file` together with
  the helpers `_fmt_size`, `_exp_to_size` and the `MAPPER_NAMES` table;
  it parses the header and slices trainer / PRG-ROM / CHR-ROM data.
* `src/samsoftnesv0.py` — classmethod `INESHeader.from_path` together with
  the helpers `_decode_nes2_size` and `_format_bytes`; it parses the
  16-byte header only.

Both are embedded below, byte buffers being modelled as `List Nat` whose
entries are byte values (theorems that need it carry the hypothesis that
every entry is below 256, which Python's `bytes` type guarantees).  The
embeddings are in namespaces `Emu4k` (for `####samsoftnesemu4k.py`) and
`V0` (for `samsoftnesv0.py`).  Fallible parsing is modelled with
`Except ParseError`; each `ParseError` constructor corresponds to exactly
one `raise` site of the source and `ParseError.message` records the
Python exception text.
-/

/-- Error taxonomy of the decoders.  Each constructor corresponds to one
distinct `raise ValueError` / `raise INESParseError` site in the source;
`TruncatedPrgRom` and `TruncatedChrRom` are the two truncation errors that
name which ROM region was short. -/
inductive ParseError where
  | TooShort
  | BadMagic
  | TruncatedTrainer
  | TruncatedPrgRom
  | TruncatedChrRom
deriving Repr, DecidableEq

/-- Python exception text attached to each raise site of
`parse_ines_file` in `####samsoftnesemu4k.py`. -/
def ParseError.message : ParseError → String
  | .TooShort => "File too small to contain an iNES header."
  | .BadMagic => "Missing NES\x1A magic; not an iNES/NES2.0 ROM."
  | .TruncatedTrainer => "Header indicates trainer but file is too small."
  | .TruncatedPrgRom => "File truncated: PRG ROM is smaller than indicated by header."
  | .TruncatedChrRom => "File truncated: CHR ROM is smaller than indicated by header."

/-- The four magic bytes N, E, S, 0x1A expected at the start of a ROM. -/
def inesMagic : List Nat := [0x4E, 0x45, 0x53, 0x1A]

/-- Rounding of the exact fraction a / b (with b > 0) to the nearest
integer, ties going to the even neighbour.  This is the rounding Python
applies when formatting a binary64 float with a fixed number of decimal
places, stated here on the exact value. -/
def roundHalfEvenDiv (a b : Nat) : Nat :=
  let q := a / b
  let r := a % b
  if 2 * r < b then q
  else if b < 2 * r then q + 1
  else if q % 2 = 0 then q else q + 1

namespace Emu4k

/-- The `INESHeader` dataclass of `####samsoftnesemu4k.py`. -/
structure INESHeader where
  format : String
  mapper : Nat
  submapper : Option Nat
  mapper_name : String
  prg_rom_size : Nat
  chr_rom_size : Nat
  prg_ram_size : Nat
  prg_nvram_size : Nat
  chr_ram_size : Nat
  chr_nvram_size : Nat
  mirroring : String
  has_battery : Bool
  has_trainer : Bool
  four_screen : Bool
  tv_system : String
  vs_unisystem : Bool
  playchoice10 : Bool
deriving Repr, DecidableEq

/-- The `Cartridge` dataclass of `####samsoftnesemu4k.py`. -/
structure Cartridge where
  header : INESHeader
  prg_rom : List Nat
  chr_rom : List Nat
  trainer : Option (List Nat)
  raw_header : List Nat
deriving Repr, DecidableEq

/-- The static `MAPPER_NAMES` dictionary, as a partial lookup. -/
def MAPPER_NAMES (m : Nat) : Option String :=
  match m with
  | 0 => some "NROM"
  | 1 => some "MMC1 (SxROM)"
  | 2 => some "UNROM (UxROM)"
  | 3 => some "CNROM (CxROM)"
  | 4 => some "MMC3 (TxROM)"
  | 5 => some "MMC5 (ExROM)"
  | 7 => some "AOROM (AxROM)"
  | 9 => some "MMC2 (PxROM)"
  | 10 => some "MMC4 (FxROM)"
  | 11 => some "Color Dreams"
  | 13 => some "CPROM"
  | 15 => some "100-in-1"
  | 66 => some "GxROM/MxROM"
  | 69 => some "FME-7 / Sunsoft 5"
  | 71 => some "Camerica (BF909x)"
  | 73 => some "VRC3"
  | 75 => some "VRC1"
  | 76 => some "VRC4"
  | 78 => some "Irem 74HC161/32"
  | 79 => some "NINA-003/006"
  | 85 => some "VRC7"
  | 87 => some "VRC2"
  | 94 => some "HVC-UN1ROM"
  | 118 => some "TxSROM"
  | 119 => some "TQROM"
  | 210 => some "Namco 129/163"
  | _ => none

/-- The lookup `MAPPER_NAMES.get(mapper, "Unknown/Custom")`. -/
def mapperNameOf (m : Nat) : String := (MAPPER_NAMES m).getD "Unknown/Custom"

/-- Rendering of the exact value num / den with one decimal place, as
Python's float formatting with one decimal place does for values that a
binary64 float holds exactly (dividing a float below 2^53 by powers of
1024 only shifts its exponent, so the values `_fmt_size` formats are
exact). -/
def oneDecimalRepr (num den : Nat) : String :=
  let t := roundHalfEvenDiv (10 * num) den
  toString (t / 10) ++ "." ++ toString (t % 10)

/-- The helper `_fmt_size` of `####samsoftnesemu4k.py`.  Its `while`
loop divides by 1024 while the value is at least 1024 and the unit index
is below 2, stopping at `B`, `KB` or `MB`; the loop (which runs at most
twice) is unrolled into the equivalent comparison chain.  At index 0 the
source renders `int(size)` of the undivided value; at higher indices it
always renders with one decimal place.  Exact for byte counts below 2^53,
where float conversion and division by 1024 are exact. -/
def _fmt_size (n_bytes : Nat) : String :=
  if n_bytes = 0 then "0 B"
  else if n_bytes < 1024 then toString n_bytes ++ " B"
  else if n_bytes < 1024 * 1024 then oneDecimalRepr n_bytes 1024 ++ " KB"
  else oneDecimalRepr n_bytes (1024 * 1024) ++ " MB"

/-- The helper `_exp_to_size` of `####samsoftnesemu4k.py`: NES 2.0
RAM/NVRAM size encoding, `0` meaning absent and otherwise `64 << exp`. -/
def _exp_to_size (exp : Nat) : Nat :=
  if exp = 0 then 0 else 64 <<< exp

/-- The header-decoding section of `parse_ines_file` (its body from the
`prg_units = header[4]` line down to the construction of `INESHeader`),
as a function of the 16-byte header slice.  The guarded reads
`header[8] if len(header) >= 9 else 0` are kept verbatim even though
`header` always has 16 bytes at the call site. -/
def decodeHeader (header : List Nat) : INESHeader :=
  let prg_units := header.getD 4 0
  let chr_units := header.getD 5 0
  let flags6 := header.getD 6 0
  let flags7 := header.getD 7 0
  let flags8 := if 9 ≤ header.length then header.getD 8 0 else 0
  let flags9 := if 10 ≤ header.length then header.getD 9 0 else 0
  let flags10 := if 11 ≤ header.length then header.getD 10 0 else 0
  let flags11 := if 12 ≤ header.length then header.getD 11 0 else 0
  let flags12 := if 13 ≤ header.length then header.getD 12 0 else 0
  let is_nes20 := flags7 &&& 0x0C == 0x08
  let format_name := if is_nes20 then "NES 2.0" else "iNES"
  let mapper_low := (flags6 >>> 4) ||| (flags7 &&& 0xF0)
  let mapper := if is_nes20 then mapper_low ||| ((flags8 &&& 0x0F) <<< 8) else mapper_low
  let submapper : Option Nat := if is_nes20 then some ((flags8 >>> 4) &&& 0x0F) else none
  let prg_rom_size :=
    if is_nes20 then (prg_units ||| ((flags9 &&& 0x0F) <<< 8)) * 16 * 1024
    else prg_units * 16 * 1024
  let chr_rom_size :=
    if is_nes20 then (chr_units ||| ((flags9 &&& 0xF0) <<< 4)) * 8 * 1024
    else chr_units * 8 * 1024
  let prg_ram_size :=
    if is_nes20 then _exp_to_size (flags10 &&& 0x0F)
    else if flags8 ≠ 0 then flags8 * 8 * 1024
    else if mapper = 1 ∨ mapper = 4 then 8 * 1024 else 0
  let prg_nvram_size := if is_nes20 then _exp_to_size ((flags10 >>> 4) &&& 0x0F) else 0
  let chr_ram_size :=
    if is_nes20 then _exp_to_size (flags11 &&& 0x0F)
    else if chr_rom_size = 0 then 8 * 1024 else 0
  let chr_nvram_size := if is_nes20 then _exp_to_size ((flags11 >>> 4) &&& 0x0F) else 0
  let vert_mirr := flags6 &&& 0x01 != 0
  let has_battery := flags6 &&& 0x02 != 0
  let has_trainer := flags6 &&& 0x04 != 0
  let four_screen := flags6 &&& 0x08 != 0
  let mirroring :=
    if four_screen then "Four-screen VRAM"
    else if vert_mirr then "Vertical" else "Horizontal"
  let vs_unisystem := flags7 &&& 0x01 != 0
  let playchoice10 := flags7 &&& 0x02 != 0
  let tv_system :=
    if is_nes20 then
      match flags12 &&& 0x03 with
      | 0 => "NTSC"
      | 1 => "PAL"
      | 2 => "Both (NTSC/PAL)"
      | 3 => "Dendy/Reserved"
      | _ => "Unknown"
    else if flags9 &&& 0x01 != 0 then "PAL" else "NTSC"
  { format := format_name
    mapper := mapper
    submapper := submapper
    mapper_name := mapperNameOf mapper
    prg_rom_size := prg_rom_size
    chr_rom_size := chr_rom_size
    prg_ram_size := prg_ram_size
    prg_nvram_size := prg_nvram_size
    chr_ram_size := chr_ram_size
    chr_nvram_size := chr_nvram_size
    mirroring := mirroring
    has_battery := has_battery
    has_trainer := has_trainer
    four_screen := four_screen
    tv_system := tv_system
    vs_unisystem := vs_unisystem
    playchoice10 := playchoice10 }

/-- The function `parse_ines_file` of `####samsoftnesemu4k.py`, on the
byte buffer read from the file.  The flow of the source is kept: length
check, magic check, header decoding (factored as `decodeHeader`), then
trainer / PRG-ROM / CHR-ROM slicing with a running offset, each slice
validated against the buffer length before it is taken. -/
def parse_ines_file (data : List Nat) : Except ParseError Cartridge :=
  if data.length < 16 then .error .TooShort
  else
    let header := data.take 16
    if header.take 4 ≠ inesMagic then .error .BadMagic
    else
      let ines_header := decodeHeader header
      if ines_header.has_trainer ∧ data.length < 16 + 512 then .error .TruncatedTrainer
      else
        let trainer_data : Option (List Nat) :=
          if ines_header.has_trainer then some ((data.drop 16).take 512) else none
        let offset1 := if ines_header.has_trainer then 16 + 512 else 16
        if data.length < offset1 + ines_header.prg_rom_size then .error .TruncatedPrgRom
        else
          let prg_data := (data.drop offset1).take ines_header.prg_rom_size
          let offset2 := offset1 + ines_header.prg_rom_size
          if data.length < offset2 + ines_header.chr_rom_size then .error .TruncatedChrRom
          else
            let chr_data := (data.drop offset2).take ines_header.chr_rom_size
            .ok { header := ines_header
                  prg_rom := prg_data
                  chr_rom := chr_data
                  trainer := trainer_data
                  raw_header := header }

end Emu4k

namespace V0

/-- The `INESHeader` dataclass of `samsoftnesv0.py`. -/
structure INESHeader where
  prg_rom_size_bytes : Nat
  chr_rom_size_bytes : Nat
  prg_ram_size_bytes : Nat
  prg_nvram_size_bytes : Nat
  chr_ram_size_bytes : Nat
  chr_nvram_size_bytes : Nat
  mapper : Nat
  submapper : Nat
  mirroring : String
  has_battery_backed_ram : Bool
  has_trainer : Bool
  is_nes2 : Bool
  is_vs_system : Bool
  is_playchoice10 : Bool
  tv_system : String
deriving Repr, DecidableEq

/-- The static helper `INESHeader._decode_nes2_size` of
`samsoftnesv0.py`: `0` for exponent `0`, otherwise `1 << (shift + 6)`. -/
def _decode_nes2_size (shift : Nat) : Nat :=
  if shift = 0 then 0 else 1 <<< (shift + 6)

/-- The field-decoding section of `INESHeader.from_path` (everything
after the length and magic checks, down to the `cls(...)` construction),
as a function of the 16-byte header slice.  Note that for NES 2.0 this
variant also ORs the low nibble of byte 9 into mapper bits 12–15,
extends the PRG/CHR unit counts with the nibbles of byte 9, decodes the
console type as the 2-bit field `flags7 & 0x03`, and for iNES 1.0
defaults the PRG-RAM unit count to 1 when byte 8 is zero and declares no
CHR-RAM. -/
def decodeHeaderV0 (header : List Nat) : INESHeader :=
  let flags6 := header.getD 6 0
  let flags7 := header.getD 7 0
  let is_nes2 := flags7 &&& 0x0C == 0x08
  let mapper0 := (flags6 >>> 4) ||| (flags7 &&& 0xF0)
  let mapper :=
    if is_nes2 then
      (mapper0 ||| ((header.getD 8 0 &&& 0x0F) <<< 8)) |||
        ((header.getD 9 0 &&& 0x0F) <<< 12)
    else mapper0
  let submapper := if is_nes2 then header.getD 8 0 >>> 4 else 0
  let prg_rom_units :=
    if is_nes2 then header.getD 4 0 ||| ((header.getD 9 0 &&& 0x0F) <<< 8)
    else header.getD 4 0
  let chr_rom_units :=
    if is_nes2 then header.getD 5 0 ||| ((header.getD 9 0 >>> 4) <<< 8)
    else header.getD 5 0
  let prg_rom_size_bytes := prg_rom_units * 16384
  let chr_rom_size_bytes := chr_rom_units * 8192
  let has_battery := flags6 &&& 0x02 != 0
  let has_trainer := flags6 &&& 0x04 != 0
  let mirroring :=
    if flags6 &&& 0x08 != 0 then "Four-screen"
    else if flags6 &&& 0x01 != 0 then "Vertical" else "Horizontal"
  let console_type := flags7 &&& 0x03
  let is_vs_system := console_type == 1
  let is_playchoice10 := console_type == 2
  let tv_system :=
    if is_nes2 then
      match header.getD 12 0 &&& 0x03 with
      | 0 => "NTSC"
      | 1 => "PAL"
      | 2 => "Multi-region"
      | 3 => "Hd/Nst Hybrid"
      | _ => "Unknown"
    else if header.getD 9 0 &&& 0x01 != 0 then "PAL" else "NTSC"
  let prg_ram_size_bytes :=
    if is_nes2 then _decode_nes2_size (header.getD 10 0 &&& 0x0F)
    else (if header.getD 8 0 ≠ 0 then header.getD 8 0 else 1) * 8192
  let prg_nvram_size_bytes :=
    if is_nes2 then _decode_nes2_size (header.getD 10 0 >>> 4) else 0
  let chr_ram_size_bytes :=
    if is_nes2 then _decode_nes2_size (header.getD 11 0 &&& 0x0F) else 0
  let chr_nvram_size_bytes :=
    if is_nes2 then _decode_nes2_size (header.getD 11 0 >>> 4) else 0
  { prg_rom_size_bytes := prg_rom_size_bytes
    chr_rom_size_bytes := chr_rom_size_bytes
    prg_ram_size_bytes := prg_ram_size_bytes
    prg_nvram_size_bytes := prg_nvram_size_bytes
    chr_ram_size_bytes := chr_ram_size_bytes
    chr_nvram_size_bytes := chr_nvram_size_bytes
    mapper := mapper
    submapper := submapper
    mirroring := mirroring
    has_battery_backed_ram := has_battery
    has_trainer := has_trainer
    is_nes2 := is_nes2
    is_vs_system := is_vs_system
    is_playchoice10 := is_playchoice10
    tv_system := tv_system }

/-- The classmethod `INESHeader.from_path` of `samsoftnesv0.py`, on the
byte buffer read from the file; the source reads and inspects only the
first 16 bytes (`rom.read(16)`), decoded by `decodeHeaderV0`. -/
def INESHeader.from_path (data : List Nat) : Except ParseError INESHeader :=
  let header := data.take 16
  if header.length < 16 then .error .TooShort
  else if header.take 4 ≠ inesMagic then .error .BadMagic
  else .ok (decodeHeaderV0 header)

/-- Rendering of the exact value num / den with two decimal places, as
Python's float formatting with two decimal places does for values that a
binary64 float holds exactly. -/
def twoDecimalRepr (num den : Nat) : String :=
  let t := roundHalfEvenDiv (100 * num) den
  let frac := t % 100
  toString (t / 100) ++ "." ++ (if frac < 10 then "0" ++ toString frac else toString frac)

/-- Python's `str.rstrip` with a single stripped character class:
removes the longest trailing run of characters satisfying p. -/
def rstrip (p : Char → Bool) (s : String) : String :=
  String.mk ((s.data.reverse.dropWhile p).reverse)

/-- One arm of the unit loop body of `INESHeader._format_bytes`: render
the exact value n / den against the given unit name — as the integer
`int(value)` when the value is integral, otherwise as
`f"{value:.2f} {unit}".rstrip("0").rstrip(".")` (the strips act on the
whole rendered string, which ends with the unit name). -/
def renderV0 (n den : Nat) (unit : String) : String :=
  if n % den = 0 then toString (n / den) ++ " " ++ unit
  else
    rstrip (fun c => c == Char.ofNat 46)
      (rstrip (fun c => c == Char.ofNat 48) (twoDecimalRepr n den ++ " " ++ unit))

/-- The static helper `INESHeader._format_bytes` of `samsoftnesv0.py`.
Its `for unit in units` loop divides by 1024 until the value drops below
1024 or the last unit `GB` is reached; the loop (at most four
iterations, the last unconditionally rendering) is unrolled into the
equivalent comparison chain, and the trailing unreachable
`return f"{int(value)} GB"` is dropped.  Exact for byte counts below
2^53, where float conversion and division by 1024 are exact. -/
def _format_bytes (byte_count : Nat) : String :=
  if byte_count = 0 then "0 B"
  else if byte_count < 1024 then renderV0 byte_count 1 "B"
  else if byte_count < 1024 * 1024 then renderV0 byte_count 1024 "KB"
  else if byte_count < 1024 * 1024 * 1024 then renderV0 byte_count (1024 * 1024) "MB"
  else renderV0 byte_count (1024 * 1024 * 1024) "GB"

end V0

/-! ### Specification-side definitions for the size formatters

These definitions are written from the specification text (the amended
claim about the size formatters), not from the source, and are compared
with the embedded `_fmt_size` and `_format_bytes` by the refinement
theorems below. -/

/-- The unit index the specification prescribes for a positive byte
count: the largest index i (at most maxIdx) whose divisor 1024^i the
value reaches — equivalently, the unit under which the scaled value
lands in [1, 1024), capped at maxIdx when the value is too large for
the available units. -/
def specUnitIdx (maxIdx n : Nat) : Nat :=
  Nat.findGreatest (fun i => 1024 ^ i ≤ n) maxIdx

/-- Specification-side restatement of `_fmt_size`: scale through B, KB,
MB (capped at MB); render a plain integer at unit B and exactly one
rounded decimal place at KB and MB. -/
def fmtSizeSpec (n : Nat) : String :=
  if n = 0 then "0 B"
  else
    match specUnitIdx 2 n with
    | 0 => toString n ++ " B"
    | 1 => Emu4k.oneDecimalRepr n 1024 ++ " KB"
    | _ => Emu4k.oneDecimalRepr n (1024 * 1024) ++ " MB"

/-- Specification-side restatement of `_format_bytes`: scale through B,
KB, MB, GB (capped at GB); render integral scaled values as plain
integers and non-integral ones with exactly two rounded decimal places
(the trailing `rstrip` calls of the source never remove anything, since
the rendered string ends with the unit name). -/
def fmtBytesSpec (n : Nat) : String :=
  if n = 0 then "0 B"
  else
    let idx := specUnitIdx 3 n
    let den := 1024 ^ idx
    let unit := match idx with
      | 0 => "B"
      | 1 => "KB"
      | 2 => "MB"
      | _ => "GB"
    if n % den = 0 then toString (n / den) ++ " " ++ unit
    else V0.twoDecimalRepr n den ++ " " ++ unit

/-! ### Concrete test buffers

Small concrete byte buffers (and the cartridges parsed from them) used
to instantiate the theorems below at explicit inputs. -/

/-- A bare 16-byte iNES 1.0 header: magic followed by zero fields. -/
def plainHeader16 : List Nat :=
  [0x4E, 0x45, 0x53, 0x1A, 0, 0, 0, 0, 0, 0, 0, 0, 0, 0, 0, 0]

/-- A 16-byte NES 2.0 header (flags7 = 0x08) with all other fields
zero. -/
def nes2Plain16 : List Nat :=
  [0x4E, 0x45, 0x53, 0x1A, 0, 0, 0, 8, 0, 0, 0, 0, 0, 0, 0, 0]

/-- A 16-byte NES 2.0 header whose byte 9 has low nibble 1 and whose
bytes 6–8 are zero. -/
def nes2Ext16 : List Nat :=
  [0x4E, 0x45, 0x53, 0x1A, 0, 0, 0, 8, 0, 1, 0, 0, 0, 0, 0, 0]

/-- A 16-byte iNES 1.0 header with flags7 = 0x03: both low console-type
bits set. -/
def consoleType3Header16 : List Nat :=
  [0x4E, 0x45, 0x53, 0x1A, 0, 0, 0, 3, 0, 0, 0, 0, 0, 0, 0, 0]

/-- A 16-byte iNES 1.0 header with mapper nibble 1 (flags6 = 0x10) and
byte 8 zero. -/
def mapper1Header16 : List Nat :=
  [0x4E, 0x45, 0x53, 0x1A, 0, 0, 0x10, 0, 0, 0, 0, 0, 0, 0, 0, 0]

/-- A 16-byte iNES 1.0 header with byte 8 = 1 and no CHR-ROM units. -/
def prgRamUnit16 : List Nat :=
  [0x4E, 0x45, 0x53, 0x1A, 0, 0, 0, 0, 1, 0, 0, 0, 0, 0, 0, 0]

/-- A 16-byte iNES 1.0 header with the trainer bit (bit 2 of flags6)
set and nothing after the header. -/
def trainerHeader16 : List Nat :=
  [0x4E, 0x45, 0x53, 0x1A, 0, 0, 4, 0, 0, 0, 0, 0, 0, 0, 0, 0]

/-- `trainerHeader16` followed by exactly the 512 trainer bytes. -/
def trainerBuf528 : List Nat := trainerHeader16 ++ List.replicate 512 0

/-- A 16-byte iNES 1.0 header declaring one 16 KiB PRG-ROM unit with
no data after the header. -/
def prgMissing16 : List Nat :=
  [0x4E, 0x45, 0x53, 0x1A, 1, 0, 0, 0, 0, 0, 0, 0, 0, 0, 0, 0]

/-- A 16-byte iNES 1.0 header declaring one 8 KiB CHR-ROM unit with no
data after the header. -/
def chrMissing16 : List Nat :=
  [0x4E, 0x45, 0x53, 0x1A, 0, 1, 0, 0, 0, 0, 0, 0, 0, 0, 0, 0]

/-- A buffer shorter than 16 bytes. -/
def shortBuf3 : List Nat := [0x4E, 0x45, 0x53]

/-- A 16-byte buffer whose first four bytes are not the magic. -/
def badMagic16 : List Nat := List.replicate 16 0

/-- The cartridge `parse_ines_file` produces from a bare 16-byte header
with no trainer and no ROM units. -/
def headerOnlyCart (buf : List Nat) : Emu4k.Cartridge :=
  { header := Emu4k.decodeHeader (buf.take 16)
    prg_rom := []
    chr_rom := []
    trainer := none
    raw_header := buf.take 16 }

/-- The cartridge `parse_ines_file` produces from `trainerBuf528`. -/
def trainerCart : Emu4k.Cartridge :=
  { header := Emu4k.decodeHeader (trainerBuf528.take 16)
    prg_rom := []
    chr_rom := []
    trainer := some ((trainerBuf528.drop 16).take 512)
    raw_header := trainerBuf528.take 16 }

/-!
### Helper lemmas

Arithmetic facts about the bit operations the decoders use (bytes are
below 256), list-slicing facts, and characterizations of the success
cases of the two parsers.
-/

/-- Oring a value below 2^k with a multiple of 2^k is addition: the bit
ranges are disjoint. -/
theorem lor_mul_two_pow_eq_add {a b k : Nat} (ha : a < 2 ^ k) :
    a ||| b * 2 ^ k = a + b * 2 ^ k := by
  induction k generalizing a b with
  | zero =>
    have hz : a = 0 := by omega
    subst hz
    simp
  | succ k ih =>
    have ha2 : a / 2 < 2 ^ k := by
      rw [pow_succ] at ha
      omega
    have hdiv2 : b * 2 ^ (k + 1) / 2 = b * 2 ^ k := by
      rw [pow_succ, ← Nat.mul_assoc]
      exact Nat.mul_div_cancel _ (by omega)
    have hmod2 : b * 2 ^ (k + 1) % 2 = 0 := by
      rw [pow_succ, ← Nat.mul_assoc]
      exact Nat.mul_mod_left _ 2
    have hdiv : (a ||| b * 2 ^ (k + 1)) / 2 = a / 2 + b * 2 ^ k := by
      rw [Nat.or_div_two, hdiv2, ih ha2]
    have hmod : (a ||| b * 2 ^ (k + 1)) % 2 = a % 2 := by
      have h1 := @Nat.or_mod_two_eq_one a (b * 2 ^ (k + 1))
      omega
    have hZ : b * 2 ^ (k + 1) = 2 * (b * 2 ^ k) := by
      rw [pow_succ]
      ring
    omega

/-- Every byte read out of a buffer of bytes is below 256 (the default
value 0 included). -/
theorem byteBound (l : List Nat) (hb : ∀ b ∈ l, b < 256) (i : Nat) :
    l.getD i 0 < 256 := by
  rcases Nat.lt_or_ge i l.length with h2 | h2
  · rw [List.getD_eq_getElem _ _ h2]
    exact hb _ (List.getElem_mem _)
  · rw [List.getD_eq_default _ _ h2]
    omega

/-- Reading inside the 16-byte header slice reads the buffer itself. -/
theorem getD_take16 (l : List Nat) (i : Nat) (h : i < 16) :
    (l.take 16).getD i 0 = l.getD i 0 := by
  rcases Nat.lt_or_ge i l.length with h2 | h2
  · rw [List.getD_eq_getElem _ _ (by simp; omega), List.getD_eq_getElem _ _ h2]
    simp [List.getElem_take]
  · rw [List.getD_eq_default _ _ (by simp; omega), List.getD_eq_default _ _ h2]

set_option maxRecDepth 100000 in
/-- For a byte, masking with 0xF0 keeps the high nibble in place. -/
theorem and240_eq (f : Nat) (h : f < 256) : f &&& 0xF0 = f / 16 * 16 := by
  have key : ∀ g < 256, g &&& 0xF0 = g / 16 * 16 := by decide
  exact key f h

/-- Masking with 0x0F extracts the low nibble. -/
theorem and15_eq (f : Nat) : f &&& 0x0F = f % 16 := by
  have h15 : (0x0F : Nat) = 2 ^ 4 - 1 := by norm_num
  rw [h15, Nat.and_pow_two_sub_one_eq_mod]

/-- Masking with 0x03 extracts the low two bits. -/
theorem and3_eq (f : Nat) : f &&& 0x03 = f % 4 := by
  have h3 : (0x03 : Nat) = 2 ^ 2 - 1 := by norm_num
  rw [h3, Nat.and_pow_two_sub_one_eq_mod]

/-- Shifting a value right by 4 divides by 16. -/
theorem shr4_eq (f : Nat) : f >>> 4 = f / 16 := by
  rw [Nat.shiftRight_eq_div_pow]

set_option maxRecDepth 100000 in
/-- The NES 2.0 format test on a byte: the masked comparison of the
source equals the test that the 2-bit field at bits 2 and 3 is 2. -/
theorem and12_eq_8_iff (f : Nat) (h : f < 256) :
    f &&& 0x0C = 8 ↔ f / 4 % 4 = 2 := by
  have key : ∀ g < 256, (g &&& 0x0C = 8 ↔ g / 4 % 4 = 2) := by decide
  exact key f h

theorem Emu4k.parse_ok_elim {data : List Nat} {cart : Emu4k.Cartridge}
    (h : Emu4k.parse_ines_file data = Except.ok cart) :
    16 ≤ data.length ∧
    data.take 4 = inesMagic ∧
    cart.header = Emu4k.decodeHeader (data.take 16) ∧
    cart.raw_header = data.take 16 ∧
    cart.trainer = (if cart.header.has_trainer then some ((data.drop 16).take 512) else none) ∧
    (cart.header.has_trainer = true → 16 + 512 ≤ data.length) ∧
    cart.prg_rom =
      (data.drop (if cart.header.has_trainer then 528 else 16)).take cart.header.prg_rom_size ∧
    (if cart.header.has_trainer then 528 else 16) + cart.header.prg_rom_size ≤ data.length ∧
    cart.chr_rom =
      (data.drop ((if cart.header.has_trainer then 528 else 16) + cart.header.prg_rom_size)).take
        cart.header.chr_rom_size ∧
    (if cart.header.has_trainer then 528 else 16) + cart.header.prg_rom_size +
        cart.header.chr_rom_size ≤ data.length := by
  simp only [Emu4k.parse_ines_file] at h
  by_cases h16 : data.length < 16
  · rw [if_pos h16] at h
    exact absurd h (by simp)
  rw [if_neg h16] at h
  by_cases hm : (data.take 16).take 4 ≠ inesMagic
  · rw [if_pos hm] at h
    exact absurd h (by simp)
  rw [if_neg hm] at h
  have hm4 : data.take 4 = inesMagic := by
    have h2 := not_not.mp hm
    rwa [List.take_take, show min 4 16 = 4 from rfl] at h2
  rcases Bool.eq_false_or_eq_true (Emu4k.decodeHeader (data.take 16)).has_trainer with ht | ht
  · -- trainer present
    simp only [Emu4k.parse_ines_file, ht, if_true, true_and] at h
    by_cases hshort : data.length < 16 + 512
    · rw [if_pos hshort] at h
      exact absurd h (by simp)
    rw [if_neg hshort] at h
    by_cases hprg : data.length < 16 + 512 + (Emu4k.decodeHeader (data.take 16)).prg_rom_size
    · rw [if_pos hprg] at h
      exact absurd h (by simp)
    rw [if_neg hprg] at h
    by_cases hchr : data.length < 16 + 512 + (Emu4k.decodeHeader (data.take 16)).prg_rom_size +
        (Emu4k.decodeHeader (data.take 16)).chr_rom_size
    · rw [if_pos hchr] at h
      exact absurd h (by simp)
    rw [if_neg hchr] at h
    injection h with h
    subst h
    refine ⟨by omega, hm4, rfl, rfl, by simp [ht], fun _ => by omega, by simp [ht], ?_, by simp [ht], ?_⟩
    · simp only [ht, if_true]
      omega
    · simp only [ht, if_true]
      omega
  · -- no trainer
    simp only [Emu4k.parse_ines_file, ht, Bool.false_eq_true, false_and, if_false] at h
    by_cases hprg : data.length < 16 + (Emu4k.decodeHeader (data.take 16)).prg_rom_size
    · rw [if_pos hprg] at h
      exact absurd h (by simp)
    rw [if_neg hprg] at h
    by_cases hchr : data.length < 16 + (Emu4k.decodeHeader (data.take 16)).prg_rom_size +
        (Emu4k.decodeHeader (data.take 16)).chr_rom_size
    · rw [if_pos hchr] at h
      exact absurd h (by simp)
    rw [if_neg hchr] at h
    injection h with h
    subst h
    refine ⟨by omega, hm4, rfl, rfl, by simp [ht], ?_, by simp [ht], ?_, by simp [ht], ?_⟩
    · intro hcontra
      simp only [Cartridge.header] at hcontra
      rw [ht] at hcontra
      exact absurd hcontra (by simp)
    · simp only [ht, Bool.false_eq_true, if_false]
      omega
    · simp only [ht, Bool.false_eq_true, if_false]
      omega

theorem V0.from_path_ok_elim {data : List Nat} {hdr : V0.INESHeader}
    (h : V0.INESHeader.from_path data = Except.ok hdr) :
    16 ≤ data.length ∧ data.take 4 = inesMagic ∧ hdr = V0.decodeHeaderV0 (data.take 16) := by
  simp only [V0.INESHeader.from_path] at h
  by_cases h16 : (data.take 16).length < 16
  · rw [if_pos h16] at h
    exact absurd h (by simp)
  rw [if_neg h16] at h
  by_cases hm : (data.take 16).take 4 ≠ inesMagic
  · rw [if_pos hm] at h
    exact absurd h (by simp)
  rw [if_neg hm] at h
  have hm4 : data.take 4 = inesMagic := by
    have h2 := not_not.mp hm
    rwa [List.take_take, show min 4 16 = 4 from rfl] at h2
  have hlen : 16 ≤ data.length := by
    simp only [List.length_take] at h16
    omega
  injection h with h
  exact ⟨hlen, hm4, h.symm⟩

/-- Success of `from_path` is exactly length plus magic: the v0 parser
performs no further validation. -/
theorem V0.from_path_ok_intro (data : List Nat) (hlen : 16 ≤ data.length)
    (hm : data.take 4 = inesMagic) :
    V0.INESHeader.from_path data = Except.ok (V0.decodeHeaderV0 (data.take 16)) := by
  simp only [V0.INESHeader.from_path]
  rw [if_neg (by simp only [List.length_take]; omega),
    if_neg (by rw [List.take_take, show min 4 16 = 4 from rfl]; simpa using hm)]

theorem lor16 {a b : Nat} (ha : a < 16) : a ||| b * 16 = a + b * 16 := by
  have h := lor_mul_two_pow_eq_add (a := a) (b := b) (k := 4) (by norm_num; omega)
  norm_num at h
  exact h

theorem lor256 {a b : Nat} (ha : a < 256) : a ||| b * 256 = a + b * 256 := by
  have h := lor_mul_two_pow_eq_add (a := a) (b := b) (k := 8) (by norm_num; omega)
  norm_num at h
  exact h

theorem lor4096 {a b : Nat} (ha : a < 4096) : a ||| b * 4096 = a + b * 4096 := by
  have h := lor_mul_two_pow_eq_add (a := a) (b := b) (k := 12) (by norm_num; omega)
  norm_num at h
  exact h

theorem shl4_eq (x : Nat) : x <<< 4 = x * 16 := by
  rw [Nat.shiftLeft_eq]

theorem shl8_eq (x : Nat) : x <<< 8 = x * 256 := by
  rw [Nat.shiftLeft_eq]

theorem shl12_eq (x : Nat) : x <<< 12 = x * 4096 := by
  rw [Nat.shiftLeft_eq]

theorem Emu4k.decodeHeader_mapper (hdr : List Nat) (hlen : hdr.length = 16)
    (hb : ∀ b ∈ hdr, b < 256) :
    (Emu4k.decodeHeader hdr).mapper =
      if hdr.getD 7 0 &&& 0x0C = 8 then
        hdr.getD 6 0 / 16 + 16 * (hdr.getD 7 0 / 16) + 256 * (hdr.getD 8 0 % 16)
      else hdr.getD 6 0 / 16 + 16 * (hdr.getD 7 0 / 16) := by
  have h6 := byteBound hdr hb 6
  have h7 := byteBound hdr hb 7
  simp only [Emu4k.decodeHeader, hlen]
  by_cases hfmt : hdr.getD 7 0 &&& 0x0C = 8
  · simp only [hfmt, beq_self_eq_true, if_true, reduceIte]
    rw [if_pos (show (9:Nat) ≤ 16 by norm_num)]
    rw [shr4_eq, and240_eq _ h7, and15_eq, shl8_eq]
    rw [lor16 (by omega), lor256 (by omega)]
    omega
  · have hne : (hdr.getD 7 0 &&& 0x0C == 8) = false := by
      rw [beq_eq_false_iff_ne]
      exact hfmt
    simp only [hne, Bool.false_eq_true, if_false, reduceIte]
    rw [if_neg hfmt]
    rw [shr4_eq, and240_eq _ h7]
    rw [lor16 (by omega)]
    omega

/-- The format tag computed by `decodeHeader` as a function of bits 2–3
of flags7. -/
theorem Emu4k.decodeHeader_format (hdr : List Nat) :
    (Emu4k.decodeHeader hdr).format =
      if hdr.getD 7 0 &&& 0x0C = 8 then "NES 2.0" else "iNES" := by
  by_cases hfmt : hdr.getD 7 0 &&& 0x0C = 8
  · simp only [Emu4k.decodeHeader, hfmt, beq_self_eq_true, if_true, reduceIte]
  · have hne : (hdr.getD 7 0 &&& 0x0C == 8) = false := by
      rw [beq_eq_false_iff_ne]
      exact hfmt
    simp only [Emu4k.decodeHeader, hne, Bool.false_eq_true, if_false, reduceIte]
    rw [if_neg hfmt]

theorem Emu4k.decodeHeader_has_trainer (hdr : List Nat) :
    (Emu4k.decodeHeader hdr).has_trainer = (hdr.getD 6 0 &&& 0x04 != 0) := rfl

theorem Emu4k.decodeHeader_vs_unisystem (hdr : List Nat) :
    (Emu4k.decodeHeader hdr).vs_unisystem = (hdr.getD 7 0 &&& 0x01 != 0) := rfl

theorem Emu4k.decodeHeader_playchoice10 (hdr : List Nat) :
    (Emu4k.decodeHeader hdr).playchoice10 = (hdr.getD 7 0 &&& 0x02 != 0) := rfl

theorem Emu4k.decodeHeader_prg_rom_size_ines (hdr : List Nat)
    (hfmt : ¬hdr.getD 7 0 &&& 0x0C = 8) :
    (Emu4k.decodeHeader hdr).prg_rom_size = hdr.getD 4 0 * 16384 := by
  have hne : (hdr.getD 7 0 &&& 0x0C == 8) = false := by
    rw [beq_eq_false_iff_ne]
    exact hfmt
  simp only [Emu4k.decodeHeader, hne, Bool.false_eq_true, if_false, reduceIte]
  ring

theorem Emu4k.decodeHeader_chr_rom_size_ines (hdr : List Nat)
    (hfmt : ¬hdr.getD 7 0 &&& 0x0C = 8) :
    (Emu4k.decodeHeader hdr).chr_rom_size = hdr.getD 5 0 * 8192 := by
  have hne : (hdr.getD 7 0 &&& 0x0C == 8) = false := by
    rw [beq_eq_false_iff_ne]
    exact hfmt
  simp only [Emu4k.decodeHeader, hne, Bool.false_eq_true, if_false, reduceIte]
  ring

theorem Emu4k.decodeHeader_prg_ram_size_ines (hdr : List Nat) (hlen : hdr.length = 16)
    (hfmt : ¬hdr.getD 7 0 &&& 0x0C = 8) :
    (Emu4k.decodeHeader hdr).prg_ram_size =
      (if hdr.getD 8 0 ≠ 0 then hdr.getD 8 0 * 8192
       else if (Emu4k.decodeHeader hdr).mapper = 1 ∨ (Emu4k.decodeHeader hdr).mapper = 4
        then 8192 else 0) := by
  have hne : (hdr.getD 7 0 &&& 0x0C == 8) = false := by
    rw [beq_eq_false_iff_ne]
    exact hfmt
  simp only [Emu4k.decodeHeader, hne, Bool.false_eq_true, if_false, reduceIte, hlen]
  rw [if_pos (show (9:Nat) ≤ 16 by norm_num)]
  by_cases h8 : hdr.getD 8 0 ≠ 0
  · rw [if_pos h8, if_pos h8]
    ring
  · rw [if_neg h8, if_neg h8]

theorem Emu4k.decodeHeader_prg_nvram_size_ines (hdr : List Nat)
    (hfmt : ¬hdr.getD 7 0 &&& 0x0C = 8) :
    (Emu4k.decodeHeader hdr).prg_nvram_size = 0 := by
  have hne : (hdr.getD 7 0 &&& 0x0C == 8) = false := by
    rw [beq_eq_false_iff_ne]
    exact hfmt
  simp only [Emu4k.decodeHeader, hne, Bool.false_eq_true, if_false, reduceIte]

theorem Emu4k.decodeHeader_chr_ram_size_ines (hdr : List Nat)
    (hfmt : ¬hdr.getD 7 0 &&& 0x0C = 8) :
    (Emu4k.decodeHeader hdr).chr_ram_size =
      (if (Emu4k.decodeHeader hdr).chr_rom_size = 0 then 8192 else 0) := by
  have hne : (hdr.getD 7 0 &&& 0x0C == 8) = false := by
    rw [beq_eq_false_iff_ne]
    exact hfmt
  rw [Emu4k.decodeHeader_chr_rom_size_ines hdr hfmt]
  simp only [Emu4k.decodeHeader, hne, Bool.false_eq_true, if_false, reduceIte]
  by_cases h5 : hdr.getD 5 0 = 0
  · rw [h5]
  · rw [if_neg (by simpa using h5), if_neg (by simpa using h5)]

theorem Emu4k.decodeHeader_chr_nvram_size_ines (hdr : List Nat)
    (hfmt : ¬hdr.getD 7 0 &&& 0x0C = 8) :
    (Emu4k.decodeHeader hdr).chr_nvram_size = 0 := by
  have hne : (hdr.getD 7 0 &&& 0x0C == 8) = false := by
    rw [beq_eq_false_iff_ne]
    exact hfmt
  simp only [Emu4k.decodeHeader, hne, Bool.false_eq_true, if_false, reduceIte]

theorem V0.decodeHeaderV0_is_nes2 (hdr : List Nat) :
    (V0.decodeHeaderV0 hdr).is_nes2 = (hdr.getD 7 0 &&& 0x0C == 0x08) := rfl

theorem V0.decodeHeaderV0_is_vs_system (hdr : List Nat) :
    (V0.decodeHeaderV0 hdr).is_vs_system = (hdr.getD 7 0 &&& 0x03 == 1) := rfl

theorem V0.decodeHeaderV0_is_playchoice10 (hdr : List Nat) :
    (V0.decodeHeaderV0 hdr).is_playchoice10 = (hdr.getD 7 0 &&& 0x03 == 2) := rfl

theorem V0.decodeHeaderV0_has_trainer (hdr : List Nat) :
    (V0.decodeHeaderV0 hdr).has_trainer = (hdr.getD 6 0 &&& 0x04 != 0) := rfl

/-- The mapper computed by `decodeHeaderV0`: two nibbles for iNES 1.0,
four nibbles (16 bits, using the low nibbles of bytes 8 and 9) for
NES 2.0. -/
theorem V0.decodeHeaderV0_mapper (hdr : List Nat) (hb : ∀ b ∈ hdr, b < 256) :
    (V0.decodeHeaderV0 hdr).mapper =
      if hdr.getD 7 0 &&& 0x0C = 8 then
        hdr.getD 6 0 / 16 + 16 * (hdr.getD 7 0 / 16) + 256 * (hdr.getD 8 0 % 16) +
          4096 * (hdr.getD 9 0 % 16)
      else hdr.getD 6 0 / 16 + 16 * (hdr.getD 7 0 / 16) := by
  have h6 := byteBound hdr hb 6
  have h7 := byteBound hdr hb 7
  by_cases hfmt : hdr.getD 7 0 &&& 0x0C = 8
  · simp only [V0.decodeHeaderV0, hfmt, beq_self_eq_true, if_true, reduceIte]
    rw [shr4_eq, and240_eq _ h7]
    simp only [and15_eq, shl8_eq, shl12_eq]
    rw [lor16 (by omega), lor256 (by omega), lor4096 (by omega)]
    omega
  · have hne : (hdr.getD 7 0 &&& 0x0C == 8) = false := by
      rw [beq_eq_false_iff_ne]
      exact hfmt
    simp only [V0.decodeHeaderV0, hne, Bool.false_eq_true, if_false, reduceIte]
    rw [if_neg hfmt]
    rw [shr4_eq, and240_eq _ h7]
    rw [lor16 (by omega)]
    omega

theorem V0.decodeHeaderV0_prg_ram_size_ines (hdr : List Nat)
    (hfmt : ¬hdr.getD 7 0 &&& 0x0C = 8) :
    (V0.decodeHeaderV0 hdr).prg_ram_size_bytes =
      (if hdr.getD 8 0 ≠ 0 then hdr.getD 8 0 else 1) * 8192 := by
  have hne : (hdr.getD 7 0 &&& 0x0C == 8) = false := by
    rw [beq_eq_false_iff_ne]
    exact hfmt
  simp only [V0.decodeHeaderV0, hne, Bool.false_eq_true, if_false, reduceIte]

theorem V0.decodeHeaderV0_other_ram_sizes_ines (hdr : List Nat)
    (hfmt : ¬hdr.getD 7 0 &&& 0x0C = 8) :
    (V0.decodeHeaderV0 hdr).prg_nvram_size_bytes = 0 ∧
    (V0.decodeHeaderV0 hdr).chr_ram_size_bytes = 0 ∧
    (V0.decodeHeaderV0 hdr).chr_nvram_size_bytes = 0 := by
  have hne : (hdr.getD 7 0 &&& 0x0C == 8) = false := by
    rw [beq_eq_false_iff_ne]
    exact hfmt
  refine ⟨?_, ?_, ?_⟩ <;>
    simp only [V0.decodeHeaderV0, hne, Bool.false_eq_true, if_false, reduceIte]

theorem V0.decodeHeaderV0_chr_rom_size_ines (hdr : List Nat)
    (hfmt : ¬hdr.getD 7 0 &&& 0x0C = 8) :
    (V0.decodeHeaderV0 hdr).chr_rom_size_bytes = hdr.getD 5 0 * 8192 := by
  have hne : (hdr.getD 7 0 &&& 0x0C == 8) = false := by
    rw [beq_eq_false_iff_ne]
    exact hfmt
  simp only [V0.decodeHeaderV0, hne, Bool.false_eq_true, if_false, reduceIte]

/-! ### The claims -/

/-- Claim C5: for every buffer of fewer than 16 bytes, parsing fails
with the TooShort error before the magic bytes are ever inspected (the
result is TooShort whatever the leading bytes hold) and never produces
a header; for every buffer of 16 bytes or more whose first four bytes
are not N, E, S, 0x1A, parsing fails with the BadMagic error.  Both
parsers behave alike. -/
theorem C5_too_short_bad_magic (data : List Nat) :
    (data.length < 16 →
      Emu4k.parse_ines_file data = Except.error ParseError.TooShort ∧
      V0.INESHeader.from_path data = Except.error ParseError.TooShort) ∧
    (16 ≤ data.length → data.take 4 ≠ inesMagic →
      Emu4k.parse_ines_file data = Except.error ParseError.BadMagic ∧
      V0.INESHeader.from_path data = Except.error ParseError.BadMagic) := by
  constructor
  · intro hlen
    constructor
    · simp only [Emu4k.parse_ines_file]
      rw [if_pos hlen]
    · simp only [V0.INESHeader.from_path]
      rw [if_pos (by simp only [List.length_take]; omega)]
  · intro hlen hmagic
    have hm16 : (data.take 16).take 4 ≠ inesMagic := by
      rwa [List.take_take, show min 4 16 = 4 from rfl]
    constructor
    · simp only [Emu4k.parse_ines_file]
      rw [if_neg (by omega), if_pos hm16]
    · simp only [V0.INESHeader.from_path]
      rw [if_neg (by simp only [List.length_take]; omega), if_pos hm16]

/-- Witness for C5 at the concrete 3-byte buffer and the concrete
16-byte zero buffer. -/
theorem C5_witness :
    (Emu4k.parse_ines_file shortBuf3 = Except.error ParseError.TooShort ∧
     V0.INESHeader.from_path shortBuf3 = Except.error ParseError.TooShort) ∧
    (Emu4k.parse_ines_file badMagic16 = Except.error ParseError.BadMagic ∧
     V0.INESHeader.from_path badMagic16 = Except.error ParseError.BadMagic) :=
  ⟨(C5_too_short_bad_magic shortBuf3).1 (by decide),
   (C5_too_short_bad_magic badMagic16).2 (by decide) (by decide)⟩

/-- Claim C8: both NES 2.0 RAM/NVRAM exponent decoders are total on
4-bit inputs with decode 0 = 0 and decode v = 64 * 2 ^ v for v in
1..15, and are monotonic on that range. -/
theorem C8_exp_decode :
    Emu4k._exp_to_size 0 = 0 ∧ V0._decode_nes2_size 0 = 0 ∧
    (∀ v, 1 ≤ v → v ≤ 15 →
      Emu4k._exp_to_size v = 64 * 2 ^ v ∧ V0._decode_nes2_size v = 64 * 2 ^ v) ∧
    (∀ a b, a ≤ b → b ≤ 15 →
      Emu4k._exp_to_size a ≤ Emu4k._exp_to_size b ∧
      V0._decode_nes2_size a ≤ V0._decode_nes2_size b) := by
  refine ⟨rfl, rfl, ?_, ?_⟩
  · intro v h1 _
    constructor
    · simp only [Emu4k._exp_to_size]
      rw [if_neg (by omega), Nat.shiftLeft_eq]
    · simp only [V0._decode_nes2_size]
      rw [if_neg (by omega), Nat.shiftLeft_eq, pow_add]
      ring
  · intro a b hab _
    rcases Nat.eq_zero_or_pos a with ha | ha
    · subst ha
      exact ⟨Nat.zero_le _, Nat.zero_le _⟩
    · have hbpos : 0 < b := by omega
      constructor
      · simp only [Emu4k._exp_to_size]
        rw [if_neg (by omega), if_neg (by omega), Nat.shiftLeft_eq, Nat.shiftLeft_eq]
        exact Nat.mul_le_mul_left _ (Nat.pow_le_pow_right (by omega) hab)
      · simp only [V0._decode_nes2_size]
        rw [if_neg (by omega), if_neg (by omega), Nat.shiftLeft_eq, Nat.shiftLeft_eq]
        exact Nat.mul_le_mul_left _ (Nat.pow_le_pow_right (by omega) (by omega))

/-- Witness for C8 at the concrete exponents 7 and the pair 3 ≤ 9. -/
theorem C8_witness :
    (Emu4k._exp_to_size 7 = 64 * 2 ^ 7 ∧ V0._decode_nes2_size 7 = 64 * 2 ^ 7) ∧
    (Emu4k._exp_to_size 3 ≤ Emu4k._exp_to_size 9 ∧
     V0._decode_nes2_size 3 ≤ V0._decode_nes2_size 9) :=
  ⟨C8_exp_decode.2.2.1 7 (by norm_num) (by norm_num),
   C8_exp_decode.2.2.2 3 9 (by norm_num) (by norm_num)⟩

/-- Claim C9: for every buffer of at least 16 bytes with valid magic
(i.e. on which parsing does not fail before format detection), the
detected format depends only on the 2-bit field at bits 2–3 of byte 7:
NES 2.0 exactly when that field is 2 (binary 10), iNES 1.0 otherwise,
whatever the other bytes hold.  Both parsers behave alike. -/
theorem C9_format_detection (data : List Nat) (hb : ∀ b ∈ data, b < 256) :
    (∀ cart, Emu4k.parse_ines_file data = Except.ok cart →
      (cart.header.format = "NES 2.0" ↔ data.getD 7 0 / 4 % 4 = 2) ∧
      (cart.header.format = "iNES" ↔ ¬data.getD 7 0 / 4 % 4 = 2)) ∧
    (∀ hdr, V0.INESHeader.from_path data = Except.ok hdr →
      (hdr.is_nes2 = true ↔ data.getD 7 0 / 4 % 4 = 2)) := by
  have h7 := byteBound data hb 7
  have hiff := and12_eq_8_iff (data.getD 7 0) h7
  constructor
  · intro cart hok
    obtain ⟨hlen, -, hhdr, -⟩ := Emu4k.parse_ok_elim hok
    rw [hhdr, Emu4k.decodeHeader_format, getD_take16 _ _ (by norm_num)]
    by_cases hc : data.getD 7 0 &&& 0x0C = 8
    · rw [if_pos hc]
      exact ⟨⟨fun _ => hiff.mp hc, fun _ => rfl⟩,
        ⟨fun hstr => absurd hstr (by decide), fun hn => absurd (hiff.mp hc) hn⟩⟩
    · rw [if_neg hc]
      exact ⟨⟨fun hstr => absurd hstr (by decide), fun h2 => absurd (hiff.mpr h2) hc⟩,
        ⟨fun _ h2 => hc (hiff.mpr h2), fun _ => rfl⟩⟩
  · intro hdr hok
    obtain ⟨hlen, hm, hhdr⟩ := V0.from_path_ok_elim hok
    rw [hhdr, V0.decodeHeaderV0_is_nes2, getD_take16 _ _ (by norm_num)]
    constructor
    · intro hbeq
      exact hiff.mp (by simpa using hbeq)
    · intro h2
      simpa using hiff.mpr h2

/-- Witness for C9 at a concrete NES 2.0 header buffer. -/
theorem C9_witness :
    ((headerOnlyCart nes2Plain16).header.format = "NES 2.0" ↔
      nes2Plain16.getD 7 0 / 4 % 4 = 2) ∧
    ((headerOnlyCart nes2Plain16).header.format = "iNES" ↔
      ¬nes2Plain16.getD 7 0 / 4 % 4 = 2) :=
  (C9_format_detection nes2Plain16 (by decide)).1 (headerOnlyCart nes2Plain16) (by rfl)

/-- Claim C10 (invariant): every cartridge the loader returns has data
slices of exactly the declared lengths — a 512-byte trainer exactly
when the trainer flag is set, PRG-ROM and CHR-ROM slices of exactly the
header sizes (empty CHR when the size is zero), and the raw header is
exactly the first 16 bytes of the input. -/
theorem C10_cartridge_slices (data : List Nat) (cart : Emu4k.Cartridge)
    (h : Emu4k.parse_ines_file data = Except.ok cart) :
    (cart.header.has_trainer = true → ∃ t, cart.trainer = some t ∧ t.length = 512) ∧
    (cart.header.has_trainer = false → cart.trainer = none) ∧
    cart.prg_rom.length = cart.header.prg_rom_size ∧
    cart.chr_rom.length = cart.header.chr_rom_size ∧
    (cart.header.chr_rom_size = 0 → cart.chr_rom = []) ∧
    cart.raw_header = data.take 16 ∧
    cart.raw_header.length = 16 := by
  obtain ⟨hlen, hm, hhdr, hraw, htr, htlen, hprg, hprgle, hchr, hchrle⟩ :=
    Emu4k.parse_ok_elim h
  have hchrlen : cart.chr_rom.length = cart.header.chr_rom_size := by
    rw [hchr]
    rcases Bool.eq_false_or_eq_true cart.header.has_trainer with ht | ht
    · simp only [ht, if_true] at hchrle ⊢
      simp only [List.length_take, List.length_drop]
      omega
    · simp only [ht, Bool.false_eq_true, if_false] at hchrle ⊢
      simp only [List.length_take, List.length_drop]
      omega
  refine ⟨?_, ?_, ?_, hchrlen, ?_, hraw, ?_⟩
  · intro ht
    refine ⟨(data.drop 16).take 512, ?_, ?_⟩
    · rw [htr, if_pos ht]
    · have h528 := htlen ht
      simp only [List.length_take, List.length_drop]
      omega
  · intro ht
    rw [htr, if_neg (by rw [ht]; exact fun hc => by cases hc)]
  · rw [hprg]
    rcases Bool.eq_false_or_eq_true cart.header.has_trainer with ht | ht
    · simp only [ht, if_true] at hprgle ⊢
      simp only [List.length_take, List.length_drop]
      omega
    · simp only [ht, Bool.false_eq_true, if_false] at hprgle ⊢
      simp only [List.length_take, List.length_drop]
      omega
  · intro hz
    rw [hchr, hz, List.take_zero]
  · rw [hraw, List.length_take]
    omega

set_option maxRecDepth 1000000 in
/-- Witness for C10 at the concrete 528-byte trainer buffer. -/
theorem C10_witness :
    (trainerCart.header.has_trainer = true →
      ∃ t, trainerCart.trainer = some t ∧ t.length = 512) ∧
    (trainerCart.header.has_trainer = false → trainerCart.trainer = none) ∧
    trainerCart.prg_rom.length = trainerCart.header.prg_rom_size ∧
    trainerCart.chr_rom.length = trainerCart.header.chr_rom_size ∧
    (trainerCart.header.chr_rom_size = 0 → trainerCart.chr_rom = []) ∧
    trainerCart.raw_header = trainerBuf528.take 16 ∧
    trainerCart.raw_header.length = 16 :=
  C10_cartridge_slices trainerBuf528 trainerCart (by rfl)

/-- Counterexample to claim C1 as stated: on this NES 2.0 buffer the v0
parser (`INESHeader.from_path`, one of the parsers the claim cites)
returns mapper 4096, outside 0–4095, although the three nibbles the
claim allows (bytes 6, 7 and the low nibble of byte 8) are all zero:
the low nibble of byte 9 enters the mapper as bits 12–15. -/
theorem C1_counterexample :
    V0.INESHeader.from_path nes2Ext16 =
      Except.ok (V0.decodeHeaderV0 (nes2Ext16.take 16)) ∧
    (V0.decodeHeaderV0 (nes2Ext16.take 16)).is_nes2 = true ∧
    nes2Ext16.getD 6 0 / 16 + 16 * (nes2Ext16.getD 7 0 / 16) +
      256 * (nes2Ext16.getD 8 0 % 16) = 0 ∧
    (V0.decodeHeaderV0 (nes2Ext16.take 16)).mapper = 4096 :=
  ⟨rfl, rfl, rfl, rfl⟩

/-- Claim C1 (amended): `parse_ines_file` composes the mapper exactly as
the claim states — three nibbles (12 bits, 0–4095) for NES 2.0 and two
nibbles (8 bits, 0–255) for iNES 1.0; `INESHeader.from_path` composes
the same two iNES nibbles, but for NES 2.0 it additionally takes bits
12–15 from the low nibble of byte 9, giving a 16-bit mapper in
0–65535. -/
theorem C1_mapper_nibbles_amended (data : List Nat) (hb : ∀ b ∈ data, b < 256) :
    (∀ cart, Emu4k.parse_ines_file data = Except.ok cart →
      (cart.header.format = "NES 2.0" →
        cart.header.mapper =
          data.getD 6 0 / 16 + 16 * (data.getD 7 0 / 16) + 256 * (data.getD 8 0 % 16) ∧
        cart.header.mapper < 4096) ∧
      (cart.header.format = "iNES" →
        cart.header.mapper = data.getD 6 0 / 16 + 16 * (data.getD 7 0 / 16) ∧
        cart.header.mapper < 256)) ∧
    (∀ hdr, V0.INESHeader.from_path data = Except.ok hdr →
      (hdr.is_nes2 = true →
        hdr.mapper =
          data.getD 6 0 / 16 + 16 * (data.getD 7 0 / 16) + 256 * (data.getD 8 0 % 16) +
            4096 * (data.getD 9 0 % 16) ∧
        hdr.mapper < 65536) ∧
      (hdr.is_nes2 = false →
        hdr.mapper = data.getD 6 0 / 16 + 16 * (data.getD 7 0 / 16) ∧
        hdr.mapper < 256)) := by
  have h6 := byteBound data hb 6
  have h7 := byteBound data hb 7
  have h8 := byteBound data hb 8
  have h9 := byteBound data hb 9
  constructor
  · intro cart hok
    obtain ⟨hlen, -, hhdr, -⟩ := Emu4k.parse_ok_elim hok
    have hlen16 : (data.take 16).length = 16 := by
      rw [List.length_take]
      omega
    have hb16 : ∀ b ∈ data.take 16, b < 256 := fun b hbm => hb b (List.mem_of_mem_take hbm)
    have hmap := Emu4k.decodeHeader_mapper (data.take 16) hlen16 hb16
    rw [getD_take16 data 6 (by norm_num), getD_take16 data 7 (by norm_num),
      getD_take16 data 8 (by norm_num)] at hmap
    rw [hhdr, hmap, Emu4k.decodeHeader_format, getD_take16 data 7 (by norm_num)]
    by_cases hc : data.getD 7 0 &&& 0x0C = 8
    · rw [if_pos hc, if_pos hc]
      exact ⟨fun _ => ⟨rfl, by omega⟩, fun hstr => absurd hstr (by decide)⟩
    · rw [if_neg hc, if_neg hc]
      exact ⟨fun hstr => absurd hstr (by decide), fun _ => ⟨rfl, by omega⟩⟩
  · intro hdr hok
    obtain ⟨hlen, -, hhdr⟩ := V0.from_path_ok_elim hok
    have hb16 : ∀ b ∈ data.take 16, b < 256 := fun b hbm => hb b (List.mem_of_mem_take hbm)
    have hmap := V0.decodeHeaderV0_mapper (data.take 16) hb16
    rw [getD_take16 data 6 (by norm_num), getD_take16 data 7 (by norm_num),
      getD_take16 data 8 (by norm_num), getD_take16 data 9 (by norm_num)] at hmap
    rw [hhdr, hmap, V0.decodeHeaderV0_is_nes2, getD_take16 data 7 (by norm_num)]
    by_cases hc : data.getD 7 0 &&& 0x0C = 8
    · rw [if_pos hc, hc]
      exact ⟨fun _ => ⟨rfl, by omega⟩, fun hfalse => absurd hfalse (by decide)⟩
    · rw [if_neg hc]
      have hne : ((data.getD 7 0 &&& 0x0C == 8) = false) := by
        rw [beq_eq_false_iff_ne]
        exact hc
      rw [hne]
      exact ⟨fun htrue => absurd htrue (by decide), fun _ => ⟨rfl, by omega⟩⟩

/-- Witness for C1 (amended) at a concrete NES 2.0 header buffer whose
parse succeeds. -/
theorem C1_witness :
    (headerOnlyCart nes2Plain16).header.mapper =
      nes2Plain16.getD 6 0 / 16 + 16 * (nes2Plain16.getD 7 0 / 16) +
        256 * (nes2Plain16.getD 8 0 % 16) ∧
    (headerOnlyCart nes2Plain16).header.mapper < 4096 :=
  ((C1_mapper_nibbles_amended nes2Plain16 (by decide)).1 (headerOnlyCart nes2Plain16)
    (by rfl)).1 (by rfl)

/-- Counterexample to claim C2 as stated: on a bare iNES header with
byte 8 zero and mapper 0 (NROM, not a mapper documented as requiring
onboard RAM, for which the claim demands PRG-RAM size 0) the v0 parser
(`INESHeader.from_path`, one of the parsers the claim cites) reports
8 KiB of PRG-RAM. -/
theorem C2_counterexample :
    V0.INESHeader.from_path plainHeader16 =
      Except.ok (V0.decodeHeaderV0 (plainHeader16.take 16)) ∧
    (V0.decodeHeaderV0 (plainHeader16.take 16)).is_nes2 = false ∧
    plainHeader16.getD 8 0 = 0 ∧
    (V0.decodeHeaderV0 (plainHeader16.take 16)).mapper = 0 ∧
    (V0.decodeHeaderV0 (plainHeader16.take 16)).prg_ram_size_bytes = 8192 :=
  ⟨rfl, rfl, rfl, rfl, rfl⟩

/-- Claim C2 (amended): for iNES 1.0, `parse_ines_file` decodes PRG-RAM
exactly as the claim states, with mappers 1 (MMC1) and 4 (MMC3) as the
documented onboard-RAM set; `INESHeader.from_path` instead defaults the
PRG-RAM unit count to 1 whenever byte 8 is zero, regardless of the
mapper, so it reports 8 KiB rather than 0 for every other mapper as
well. -/
theorem C2_prg_ram_amended (data : List Nat) :
    (∀ cart, Emu4k.parse_ines_file data = Except.ok cart → cart.header.format = "iNES" →
      cart.header.prg_ram_size =
        (if data.getD 8 0 ≠ 0 then data.getD 8 0 * 8192
         else if cart.header.mapper = 1 ∨ cart.header.mapper = 4 then 8192 else 0)) ∧
    (∀ hdr, V0.INESHeader.from_path data = Except.ok hdr → hdr.is_nes2 = false →
      hdr.prg_ram_size_bytes = (if data.getD 8 0 ≠ 0 then data.getD 8 0 else 1) * 8192) := by
  constructor
  · intro cart hok hfmtstr
    obtain ⟨hlen, -, hhdr, -⟩ := Emu4k.parse_ok_elim hok
    have hlen16 : (data.take 16).length = 16 := by
      rw [List.length_take]
      omega
    have hc : ¬(data.take 16).getD 7 0 &&& 0x0C = 8 := by
      intro hc
      rw [hhdr, Emu4k.decodeHeader_format, if_pos hc] at hfmtstr
      exact absurd hfmtstr (by decide)
    have hram := Emu4k.decodeHeader_prg_ram_size_ines (data.take 16) hlen16 hc
    rw [getD_take16 data 8 (by norm_num)] at hram
    rw [hhdr, hram]
  · intro hdr hok hfmt
    obtain ⟨hlen, -, hhdr⟩ := V0.from_path_ok_elim hok
    have hc : ¬(data.take 16).getD 7 0 &&& 0x0C = 8 := by
      intro hc
      rw [hhdr, V0.decodeHeaderV0_is_nes2, hc] at hfmt
      exact absurd hfmt (by decide)
    have hram := V0.decodeHeaderV0_prg_ram_size_ines (data.take 16) hc
    rw [getD_take16 data 8 (by norm_num)] at hram
    rw [hhdr, hram]

/-- Witness for C2 (amended) at a concrete iNES header with byte 8 zero
and mapper 1 (which the source documents as requiring onboard RAM). -/
theorem C2_witness :
    (headerOnlyCart mapper1Header16).header.prg_ram_size =
      (if mapper1Header16.getD 8 0 ≠ 0 then mapper1Header16.getD 8 0 * 8192
       else if (headerOnlyCart mapper1Header16).header.mapper = 1 ∨
          (headerOnlyCart mapper1Header16).header.mapper = 4 then 8192 else 0) :=
  (C2_prg_ram_amended mapper1Header16).1 (headerOnlyCart mapper1Header16) (by rfl) (by rfl)

/-- Counterexample to claim C3 as stated: on an iNES header declaring
no CHR-ROM units the v0 parser (`INESHeader.from_path`, one of the
parsers the claim cites) reports CHR-RAM 0 where the claim demands
8 KiB. -/
theorem C3_counterexample :
    V0.INESHeader.from_path prgRamUnit16 =
      Except.ok (V0.decodeHeaderV0 (prgRamUnit16.take 16)) ∧
    (V0.decodeHeaderV0 (prgRamUnit16.take 16)).is_nes2 = false ∧
    (V0.decodeHeaderV0 (prgRamUnit16.take 16)).chr_rom_size_bytes = 0 ∧
    (V0.decodeHeaderV0 (prgRamUnit16.take 16)).chr_ram_size_bytes = 0 :=
  ⟨rfl, rfl, rfl, rfl⟩

/-- Claim C3 (amended): for iNES 1.0, `parse_ines_file` decodes CHR-RAM
exactly as the claim states (8 KiB iff no CHR-ROM is declared) and
leaves both NVRAM sizes 0; `INESHeader.from_path` reports CHR-RAM 0
always (it never applies the 8 KiB default), with both NVRAM sizes
likewise 0. -/
theorem C3_chr_ram_amended (data : List Nat) :
    (∀ cart, Emu4k.parse_ines_file data = Except.ok cart → cart.header.format = "iNES" →
      cart.header.chr_ram_size = (if cart.header.chr_rom_size = 0 then 8192 else 0) ∧
      cart.header.prg_nvram_size = 0 ∧ cart.header.chr_nvram_size = 0) ∧
    (∀ hdr, V0.INESHeader.from_path data = Except.ok hdr → hdr.is_nes2 = false →
      hdr.chr_ram_size_bytes = 0 ∧ hdr.prg_nvram_size_bytes = 0 ∧
      hdr.chr_nvram_size_bytes = 0) := by
  constructor
  · intro cart hok hfmtstr
    obtain ⟨hlen, -, hhdr, -⟩ := Emu4k.parse_ok_elim hok
    have hc : ¬(data.take 16).getD 7 0 &&& 0x0C = 8 := by
      intro hc
      rw [hhdr, Emu4k.decodeHeader_format, if_pos hc] at hfmtstr
      exact absurd hfmtstr (by decide)
    refine ⟨?_, ?_, ?_⟩
    · rw [hhdr, Emu4k.decodeHeader_chr_ram_size_ines (data.take 16) hc]
    · rw [hhdr, Emu4k.decodeHeader_prg_nvram_size_ines (data.take 16) hc]
    · rw [hhdr, Emu4k.decodeHeader_chr_nvram_size_ines (data.take 16) hc]
  · intro hdr hok hfmt
    obtain ⟨hlen, -, hhdr⟩ := V0.from_path_ok_elim hok
    have hc : ¬(data.take 16).getD 7 0 &&& 0x0C = 8 := by
      intro hc
      rw [hhdr, V0.decodeHeaderV0_is_nes2, hc] at hfmt
      exact absurd hfmt (by decide)
    obtain ⟨h1, h2, h3⟩ := V0.decodeHeaderV0_other_ram_sizes_ines (data.take 16) hc
    exact ⟨by rw [hhdr, h2], by rw [hhdr, h1], by rw [hhdr, h3]⟩

/-- Witness for C3 (amended) at a concrete iNES header with no CHR-ROM
units. -/
theorem C3_witness :
    (headerOnlyCart plainHeader16).header.chr_ram_size =
      (if (headerOnlyCart plainHeader16).header.chr_rom_size = 0 then 8192 else 0) ∧
    (headerOnlyCart plainHeader16).header.prg_nvram_size = 0 ∧
    (headerOnlyCart plainHeader16).header.chr_nvram_size = 0 :=
  (C3_chr_ram_amended plainHeader16).1 (headerOnlyCart plainHeader16) (by rfl) (by rfl)

/-- Counterexample to claim C4 as stated: `parse_ines_file` (one of the
parsers the claim cites) decodes the two low bits of flags7
independently, so the field value 3 — which the claim says must decode
as Extended, not as VsSystem and PlayChoice10 simultaneously — sets
both console flags at once. -/
theorem C4_counterexample :
    Emu4k.parse_ines_file consoleType3Header16 =
      Except.ok (headerOnlyCart consoleType3Header16) ∧
    consoleType3Header16.getD 7 0 &&& 0x03 = 3 ∧
    (headerOnlyCart consoleType3Header16).header.vs_unisystem = true ∧
    (headerOnlyCart consoleType3Header16).header.playchoice10 = true :=
  ⟨rfl, rfl, rfl, rfl⟩

/-- Claim C4 (amended): `INESHeader.from_path` decodes the console type
as the claim states — a single 2-bit field, value 1 meaning VsSystem,
value 2 meaning PlayChoice10, and the two flags never both set (values
0 and 3, the latter the Extended case, set neither); `parse_ines_file`
instead decodes bits 0 and 1 of flags7 as independent VS-Unisystem and
PlayChoice-10 flags, so the field value 3 sets both at once. -/
theorem C4_console_type_amended (data : List Nat) :
    (∀ hdr, V0.INESHeader.from_path data = Except.ok hdr →
      (hdr.is_vs_system = true ↔ data.getD 7 0 &&& 0x03 = 1) ∧
      (hdr.is_playchoice10 = true ↔ data.getD 7 0 &&& 0x03 = 2) ∧
      ¬(hdr.is_vs_system = true ∧ hdr.is_playchoice10 = true)) ∧
    (∀ cart, Emu4k.parse_ines_file data = Except.ok cart →
      (cart.header.vs_unisystem = true ↔ data.getD 7 0 &&& 0x01 ≠ 0) ∧
      (cart.header.playchoice10 = true ↔ data.getD 7 0 &&& 0x02 ≠ 0)) := by
  constructor
  · intro hdr hok
    obtain ⟨hlen, -, hhdr⟩ := V0.from_path_ok_elim hok
    rw [hhdr, V0.decodeHeaderV0_is_vs_system, V0.decodeHeaderV0_is_playchoice10,
      getD_take16 data 7 (by norm_num)]
    refine ⟨by simp, by simp, ?_⟩
    rintro ⟨h1, h2⟩
    rw [beq_iff_eq] at h1 h2
    omega
  · intro cart hok
    obtain ⟨hlen, -, hhdr, -⟩ := Emu4k.parse_ok_elim hok
    rw [hhdr, Emu4k.decodeHeader_vs_unisystem, Emu4k.decodeHeader_playchoice10,
      getD_take16 data 7 (by norm_num)]
    constructor
    · simp [bne_iff_ne]
    · simp [bne_iff_ne]

/-- Witness for C4 (amended) at a concrete buffer with console-type
field value 3: the v0 parser sets neither flag. -/
theorem C4_witness :
    ((V0.decodeHeaderV0 (consoleType3Header16.take 16)).is_vs_system = true ↔
      consoleType3Header16.getD 7 0 &&& 0x03 = 1) ∧
    ((V0.decodeHeaderV0 (consoleType3Header16.take 16)).is_playchoice10 = true ↔
      consoleType3Header16.getD 7 0 &&& 0x03 = 2) ∧
    ¬((V0.decodeHeaderV0 (consoleType3Header16.take 16)).is_vs_system = true ∧
      (V0.decodeHeaderV0 (consoleType3Header16.take 16)).is_playchoice10 = true) :=
  (C4_console_type_amended consoleType3Header16).1
    (V0.decodeHeaderV0 (consoleType3Header16.take 16)) (by rfl)

/-- Claim C6: with a valid length-16-or-more magic-carrying buffer, if
the parsed header has the trainer flag set but fewer than 512 bytes
follow the 16-byte header, loading fails with TruncatedTrainer; if the
buffer is shorter than the declared PRG-ROM or CHR-ROM region at its
computed offset, loading fails with the truncation error naming that
region (the attached messages name PRG and CHR respectively).  The
16-byte trainer-bit instance is the witness. -/
theorem C6_truncation_errors (data : List Nat) (hlen : 16 ≤ data.length)
    (hm : data.take 4 = inesMagic) :
    ((Emu4k.decodeHeader (data.take 16)).has_trainer = true → data.length < 16 + 512 →
      Emu4k.parse_ines_file data = Except.error ParseError.TruncatedTrainer) ∧
    (((Emu4k.decodeHeader (data.take 16)).has_trainer = true → 16 + 512 ≤ data.length) →
      data.length <
        (if (Emu4k.decodeHeader (data.take 16)).has_trainer then 16 + 512 else 16) +
          (Emu4k.decodeHeader (data.take 16)).prg_rom_size →
      Emu4k.parse_ines_file data = Except.error ParseError.TruncatedPrgRom) ∧
    (((Emu4k.decodeHeader (data.take 16)).has_trainer = true → 16 + 512 ≤ data.length) →
      (if (Emu4k.decodeHeader (data.take 16)).has_trainer then 16 + 512 else 16) +
          (Emu4k.decodeHeader (data.take 16)).prg_rom_size ≤ data.length →
      data.length <
        (if (Emu4k.decodeHeader (data.take 16)).has_trainer then 16 + 512 else 16) +
          (Emu4k.decodeHeader (data.take 16)).prg_rom_size +
          (Emu4k.decodeHeader (data.take 16)).chr_rom_size →
      Emu4k.parse_ines_file data = Except.error ParseError.TruncatedChrRom) ∧
    ParseError.TruncatedPrgRom.message =
      "File truncated: PRG ROM is smaller than indicated by header." ∧
    ParseError.TruncatedChrRom.message =
      "File truncated: CHR ROM is smaller than indicated by header." := by
  have hm16 : ¬(data.take 16).take 4 ≠ inesMagic := by
    rw [List.take_take, show min 4 16 = 4 from rfl]
    exact fun hne => hne hm
  refine ⟨?_, ?_, ?_, rfl, rfl⟩
  · intro ht hshort
    simp only [Emu4k.parse_ines_file]
    rw [if_neg (by omega), if_neg hm16, if_pos ⟨ht, hshort⟩]
  · intro hts hprg
    simp only [Emu4k.parse_ines_file]
    rw [if_neg (by omega), if_neg hm16,
      if_neg (by rintro ⟨ht2, hlt⟩; have := hts ht2; omega),
      if_pos hprg]
  · intro hts hprgok hchr
    simp only [Emu4k.parse_ines_file]
    rw [if_neg (by omega), if_neg hm16,
      if_neg (by rintro ⟨ht2, hlt⟩; have := hts ht2; omega),
      if_neg (by omega), if_pos hchr]

/-- Witness for C6 at three concrete 16-byte buffers: the trainer-bit
header with no trainer bytes, a header declaring a missing PRG-ROM
unit, and a header declaring a missing CHR-ROM unit. -/
theorem C6_witness :
    Emu4k.parse_ines_file trainerHeader16 = Except.error ParseError.TruncatedTrainer ∧
    Emu4k.parse_ines_file prgMissing16 = Except.error ParseError.TruncatedPrgRom ∧
    Emu4k.parse_ines_file chrMissing16 = Except.error ParseError.TruncatedChrRom :=
  ⟨(C6_truncation_errors trainerHeader16 (by decide) (by decide)).1 (by decide) (by decide),
   (C6_truncation_errors prgMissing16 (by decide) (by decide)).2.1 (by decide) (by decide),
   (C6_truncation_errors chrMissing16 (by decide) (by decide)).2.2.1 (by decide) (by decide)
     (by decide)⟩

/-- Python's `rstrip` leaves a string alone when its last character is
not one of the stripped characters. -/
theorem V0.rstrip_of_last_not (p : Char → Bool) (s : String) (l : List Char) (c : Char)
    (hdata : s.data = l ++ [c]) (hc : p c = false) : V0.rstrip p s = s := by
  cases s with
  | mk d =>
    have hd : d = l ++ [c] := hdata
    subst hd
    show String.mk (((l ++ [c]).reverse.dropWhile p).reverse) = String.mk (l ++ [c])
    rw [List.reverse_append]
    simp only [List.reverse_cons, List.reverse_nil, List.nil_append, List.singleton_append]
    rw [List.dropWhile_cons]
    simp only [hc, Bool.false_eq_true, if_false, List.reverse_cons, List.reverse_reverse]

/-- The two `rstrip` calls of `_format_bytes` never strip anything: the
rendered string ends with the unit name, whose last character is `B`. -/
theorem V0.renderV0_eq (n den : Nat) (unit : String) (l : List Char)
    (hunit : unit.data = l ++ [Char.ofNat 66]) :
    V0.renderV0 n den unit =
      (if n % den = 0 then toString (n / den) ++ " " ++ unit
       else V0.twoDecimalRepr n den ++ " " ++ unit) := by
  by_cases hmod : n % den = 0
  · simp only [V0.renderV0, hmod, if_pos]
  · simp only [V0.renderV0]
    rw [if_neg hmod, if_neg hmod]
    have hdata : (V0.twoDecimalRepr n den ++ " " ++ unit).data =
        ((V0.twoDecimalRepr n den ++ " ").data ++ l) ++ [Char.ofNat 66] := by
      rw [String.data_append, hunit, ← List.append_assoc]
    rw [V0.rstrip_of_last_not _ _ _ _ hdata (by decide),
      V0.rstrip_of_last_not _ _ _ _ hdata (by decide)]

theorem specUnitIdx_eq_zero (maxIdx n : Nat) (h : n < 1024) : specUnitIdx maxIdx n = 0 := by
  rw [specUnitIdx]
  rw [Nat.findGreatest_eq_zero_iff]
  intro i hi hle hP
  have h1024 : 1024 ≤ 1024 ^ i := by
    calc (1024 : Nat) = 1024 ^ 1 := by norm_num
    _ ≤ 1024 ^ i := Nat.pow_le_pow_right (by norm_num) hi
  omega

theorem specUnitIdx2_eq_one (n : Nat) (h1 : 1024 ≤ n) (h2 : n < 1024 * 1024) :
    specUnitIdx 2 n = 1 := by
  rw [specUnitIdx]
  rw [Nat.findGreatest_eq_iff]
  refine ⟨by norm_num, fun _ => by norm_num; omega, ?_⟩
  intro k hk1 hk2 hP
  interval_cases k
  norm_num at hP
  omega

theorem specUnitIdx2_eq_two (n : Nat) (h1 : 1024 * 1024 ≤ n) : specUnitIdx 2 n = 2 := by
  rw [specUnitIdx]
  rw [Nat.findGreatest_eq_iff]
  refine ⟨by norm_num, fun _ => by norm_num; omega, ?_⟩
  intro k hk1 hk2 hP
  omega

theorem specUnitIdx3_eq_one (n : Nat) (h1 : 1024 ≤ n) (h2 : n < 1024 * 1024) :
    specUnitIdx 3 n = 1 := by
  rw [specUnitIdx]
  rw [Nat.findGreatest_eq_iff]
  refine ⟨by norm_num, fun _ => by norm_num; omega, ?_⟩
  intro k hk1 hk2 hP
  interval_cases k
  · norm_num at hP
    omega
  · norm_num at hP
    omega

theorem specUnitIdx3_eq_two (n : Nat) (h1 : 1024 * 1024 ≤ n) (h2 : n < 1024 * 1024 * 1024) :
    specUnitIdx 3 n = 2 := by
  rw [specUnitIdx]
  rw [Nat.findGreatest_eq_iff]
  refine ⟨by norm_num, fun _ => by norm_num; omega, ?_⟩
  intro k hk1 hk2 hP
  interval_cases k
  norm_num at hP
  omega

theorem specUnitIdx3_eq_three (n : Nat) (h1 : 1024 * 1024 * 1024 ≤ n) :
    specUnitIdx 3 n = 3 := by
  rw [specUnitIdx]
  rw [Nat.findGreatest_eq_iff]
  refine ⟨by norm_num, fun _ => by norm_num; omega, ?_⟩
  intro k hk1 hk2 hP
  omega

/-- Counterexample to claim C7 as stated: `_fmt_size` renders the value
1024, integral after scaling (exactly 1 KB), with a decimal place
rather than as a plain integer, and `_format_bytes` renders the value
1280, non-integral after scaling (1.25 KB), with two decimal places
rather than exactly one. -/
theorem C7_counterexample :
    Emu4k._fmt_size 1024 = "1.0 KB" ∧ Emu4k._fmt_size 1024 ≠ "1 KB" ∧
    V0._format_bytes 1280 = "1.25 KB" ∧
    V0._format_bytes 1280 ≠ "1.2 KB" ∧ V0._format_bytes 1280 ≠ "1.3 KB" := by
  refine ⟨rfl, by decide, rfl, by decide, by decide⟩

/-- Claim C7 (amended): both size formatters scale by repeated division
by 1024, choosing the largest unit whose divisor the value reaches —
`_fmt_size` through B/KB/MB (capped at MB), `_format_bytes` through
B/KB/MB/GB (capped at GB).  `_fmt_size` renders a plain integer at unit
B and always exactly one rounded decimal place at KB/MB, integral or
not; `_format_bytes` renders integral scaled values as plain integers
and non-integral ones with exactly two rounded decimal places (its
trailing rstrip calls never fire).  Stated as pointwise equality with
the specification-side definitions `fmtSizeSpec` and `fmtBytesSpec`. -/
theorem C7_size_format_amended :
    (∀ n, Emu4k._fmt_size n = fmtSizeSpec n) ∧
    (∀ n, V0._format_bytes n = fmtBytesSpec n) := by
  constructor
  · intro n
    by_cases h0 : n = 0
    · simp [Emu4k._fmt_size, fmtSizeSpec, h0]
    by_cases h1 : n < 1024
    · simp only [Emu4k._fmt_size, fmtSizeSpec, if_neg h0, if_pos h1,
        specUnitIdx_eq_zero 2 n h1]
    by_cases h2 : n < 1024 * 1024
    · simp only [Emu4k._fmt_size, fmtSizeSpec, if_neg h0, if_neg h1, if_pos h2,
        specUnitIdx2_eq_one n (by omega) h2]
    · simp only [Emu4k._fmt_size, fmtSizeSpec, if_neg h0, if_neg h1, if_neg h2,
        specUnitIdx2_eq_two n (by omega)]
  · intro n
    by_cases h0 : n = 0
    · simp [V0._format_bytes, fmtBytesSpec, h0]
    by_cases h1 : n < 1024
    · simp only [V0._format_bytes, fmtBytesSpec, if_neg h0, if_pos h1,
        specUnitIdx_eq_zero 3 n h1, pow_zero]
      simp [V0.renderV0, Nat.mod_one]
    by_cases h2 : n < 1024 * 1024
    · simp only [V0._format_bytes, fmtBytesSpec, if_neg h0, if_neg h1, if_pos h2,
        specUnitIdx3_eq_one n (by omega) h2, pow_one]
      rw [V0.renderV0_eq n 1024 "KB" [Char.ofNat 75] (by decide)]
    by_cases h3 : n < 1024 * 1024 * 1024
    · simp only [V0._format_bytes, fmtBytesSpec, if_neg h0, if_neg h1, if_neg h2, if_pos h3,
        specUnitIdx3_eq_two n (by omega) h3,
        show (1024 : Nat) ^ 2 = 1024 * 1024 from by norm_num]
      rw [V0.renderV0_eq n (1024 * 1024) "MB" [Char.ofNat 77] (by decide)]
    · simp only [V0._format_bytes, fmtBytesSpec, if_neg h0, if_neg h1, if_neg h2, if_neg h3,
        specUnitIdx3_eq_three n (by omega),
        show (1024 : Nat) ^ 3 = 1024 * 1024 * 1024 from by norm_num]
      rw [V0.renderV0_eq n (1024 * 1024 * 1024) "GB" [Char.ofNat 71] (by decide)]
